import Mathlib

/-!
Shallow embedding of the analytics core of the fmaa-backend-api repository
(statistics aggregation, system-health scoring, anomaly detection and
capacity projection from the monitoring/analytics handler), together with
theorems settling the frozen specification claims.

Numbers are modelled as exact rationals (`ℚ`) where the JavaScript source
only performs field arithmetic, and as reals (`ℝ`) where it takes square
roots or fractional powers.  JavaScript `Math.round` is `fun x => ⌊x + 1/2⌋`
(round half toward positive infinity).  Where the source can produce the
IEEE non-values `NaN`/`Infinity` (division by zero, `parseInt` failure),
the embedding uses `Option` (`none` = no finite value) or an explicit
result type; each such spot is documented at its definition.
-/

namespace FMAA

/-- JavaScript `Math.round` on an exact rational: round half up. -/
def jsRound (q : ℚ) : ℤ := ⌊q + 1/2⌋

/-- JavaScript `Math.round` on a real argument: round half up. -/
noncomputable def jsRoundR (x : ℝ) : ℤ := ⌊x + 1/2⌋

/-- Numeric value of a list of decimal digit characters, most significant
first (the digit-accumulation loop inside `parseInt`). -/
def digitsVal (ds : List Char) : ℕ :=
  ds.foldl (fun a c => a * 10 + (c.toNat - 48)) 0

/-- JavaScript `parseInt` (base 10) on a character list: skip leading
whitespace, read an optional sign, then the longest prefix of decimal
digits.  `none` models the `NaN` result when no digits are found. -/
def jsParseInt (cs : List Char) : Option ℤ :=
  let t := cs.dropWhile (fun c => c.isWhitespace)
  let sgn : ℤ := if t.head? = some '-' then -1 else 1
  let body := if t.head? = some '-' ∨ t.head? = some '+' then t.tail else t
  let ds := body.takeWhile (fun c => c.isDigit)
  if ds.isEmpty then none else some (sgn * (digitsVal ds : ℤ))

/-- `parseTimeframe` from the source: the last character selects the unit
(`h`/`d`/`w`), `parseInt` of the rest gives the count, and any other unit
character falls back to 24 hours (86400000 ms).  A failed `parseInt`
(`NaN`) propagates through the unit multiplication as `none`; the default
branch returns the fallback unconditionally, exactly as the source
`switch` does. -/
def parseTimeframe (s : String) : Option ℤ :=
  let cs := s.toList
  let value := jsParseInt cs.dropLast
  let unit := cs.getLast?
  if unit = some 'h' then value.map (fun v => v * 3600000)
  else if unit = some 'd' then value.map (fun v => v * 86400000)
  else if unit = some 'w' then value.map (fun v => v * 604800000)
  else some 86400000

/-- A stored metric sample (the fields the analytics functions read). -/
structure Metric where
  id : ℕ
  metric_type : String
  metric_value : ℚ
  timestamp : ℕ
deriving DecidableEq, Repr

/-- An agent record, reduced to the field the analytics functions read. -/
structure Agent where
  status : String
deriving DecidableEq, Repr

/-- A task record, reduced to the field the analytics functions read. -/
structure Task where
  status : String
deriving DecidableEq, Repr

/-- The `response_time` sample values of a metric list, in order
(`metrics.filter(m => m.metric_type === 'response_time')` mapped to
values). -/
def responseTimes (metrics : List Metric) : List ℚ :=
  (metrics.filter (fun m => decide (m.metric_type = "response_time"))).map
    (fun m => m.metric_value)

/-- The averaging fold used by the source
(`reduce((sum, m, _, arr) => sum + m.metric_value / arr.length, 0)`):
each element contributes `value / length` to the accumulator, and the
empty list yields `0` (the `reduce` initial value). -/
def avgOf (l : List ℚ) : ℚ :=
  l.foldl (fun s v => s + v / (l.length : ℚ)) 0

/-- Number of agents whose status is `active`. -/
def activeCount (agents : List Agent) : ℕ :=
  (agents.filter (fun a => decide (a.status = "active"))).length

/-- Number of tasks whose status is `completed`. -/
def completedCount (tasks : List Task) : ℕ :=
  (tasks.filter (fun t => decide (t.status = "completed"))).length

/-- Agent-availability ratio `activeAgents / Math.max(totalAgents, 1)`. -/
def agentAvailability (agents : List Agent) : ℚ :=
  (activeCount agents : ℚ) / max (agents.length : ℚ) 1

/-- Task-success ratio
`recentSuccessfulTasks / Math.max(totalRecentTasks, 1)`. -/
def taskSuccessRate (tasks : List Task) : ℚ :=
  (completedCount tasks : ℚ) / max (tasks.length : ℚ) 1

/-- Response-time factor: `Math.max(0, 100 - avgResponseTime / 10) / 100`. -/
def responseFactor (metrics : List Metric) : ℚ :=
  max 0 (100 - avgOf (responseTimes metrics) / 10) / 100

/-- The accumulated `healthScore` value of `calculateSystemHealth`, before
rounding: 40% agent availability, 40% task success, 20% response-time
factor. -/
def healthScoreQ (agents : List Agent) (metrics : List Metric)
    (tasks : List Task) : ℚ :=
  agentAvailability agents * 40 + taskSuccessRate tasks * 40 +
    responseFactor metrics * 20

/-- Result record of `calculateSystemHealth`. -/
structure HealthReport where
  score : ℤ
  status : String
  agent_availability : ℤ
  task_success_rate : ℤ
  avg_response_time : ℤ
deriving DecidableEq, Repr

/-- `calculateSystemHealth` from the source.  Note that the `status`
ternary chain tests the raw `healthScore`, while `score` is
`Math.round(healthScore)`. -/
def calculateSystemHealth (agents : List Agent) (metrics : List Metric)
    (tasks : List Task) : HealthReport :=
  ⟨jsRound (healthScoreQ agents metrics tasks),
   if 80 ≤ healthScoreQ agents metrics tasks then "excellent"
   else if 60 ≤ healthScoreQ agents metrics tasks then "good"
   else if 40 ≤ healthScoreQ agents metrics tasks then "fair"
   else "poor",
   jsRound (agentAvailability agents * 100),
   jsRound (taskSuccessRate tasks * 100),
   jsRound (avgOf (responseTimes metrics))⟩

/-- The status bucketing described by the specification, as a function of
a score value: at least 80 `excellent`, at least 60 `good`, at least 40
`fair`, otherwise `poor`. -/
def specStatusBucket (q : ℚ) : String :=
  if 80 ≤ q then "excellent"
  else if 60 ≤ q then "good"
  else if 40 ≤ q then "fair"
  else "poor"

/-! ### Statistics helpers (`calculateMedian`, `calculatePercentile`,
`calculateStandardDeviation`) and the per-type metric aggregator. -/

/-- Ascending stable insertion of a value into a sorted list; building
block of `jsSort`. -/
def insertAsc (v : ℚ) : List ℚ → List ℚ
  | [] => [v]
  | x :: xs => if v ≤ x then v :: x :: xs else x :: insertAsc v xs

/-- Ascending numeric sort, modelling `[...values].sort((a, b) => a - b)`
(stable, ascending). -/
def jsSort : List ℚ → List ℚ
  | [] => []
  | x :: xs => insertAsc x (jsSort xs)

/-- Arithmetic mean `values.reduce((s, v) => s + v, 0) / values.length`.
All call sites pass nonempty lists; on `[]` the source would produce the
IEEE `0/0 = NaN`, while this returns `0` (division by zero in `ℚ`). -/
def meanOf (l : List ℚ) : ℚ := l.sum / (l.length : ℚ)

/-- Population variance: mean squared deviation from the mean (no Bessel
correction), as computed inline by the source. -/
def varianceOf (l : List ℚ) : ℚ :=
  ((l.map (fun v => (v - meanOf l) ^ 2)).sum) / (l.length : ℚ)

/-- `calculateMedian`: sort ascending, take the middle element, or the
average of the two middle elements when the count is even.  Out-of-range
reads (possible only for the empty list, which no call site passes)
default to `0`. -/
def calculateMedian (values : List ℚ) : ℚ :=
  let sorted := jsSort values
  let mid := sorted.length / 2
  if sorted.length % 2 = 0 then (sorted.getD (mid - 1) 0 + sorted.getD mid 0) / 2
  else sorted.getD mid 0

/-- `calculatePercentile`: sort ascending and take index
`ceil((percentile/100) * n) - 1`, clamped below by `0`.  Out-of-range
reads (empty list only) default to `0`. -/
def calculatePercentile (values : List ℚ) (percentile : ℚ) : ℚ :=
  let sorted := jsSort values
  let index : ℤ := ⌈percentile / 100 * (sorted.length : ℚ)⌉ - 1
  sorted.getD (max 0 index).toNat 0

/-- `calculateStandardDeviation`: square root of the population
variance. -/
noncomputable def calculateStandardDeviation (values : List ℚ) : ℝ :=
  Real.sqrt (varianceOf values)

/-- The metric types of a sample list in first-occurrence order: the key
set (and iteration order) of the `reduce`-built grouping object. -/
def groupKeys (metrics : List Metric) : List String :=
  metrics.foldl
    (fun ks m => if m.metric_type ∈ ks then ks else ks ++ [m.metric_type]) []

/-- The samples of one metric type, in arrival order (the array pushed
for that key by the grouping `reduce`). -/
def groupOf (ty : String) (metrics : List Metric) : List Metric :=
  metrics.filter (fun m => decide (m.metric_type = ty))

/-- The sample values of one metric type, in arrival order. -/
def valuesOf (ty : String) (metrics : List Metric) : List ℚ :=
  (groupOf ty metrics).map (fun m => m.metric_value)

/-- Per-type summary record built by `generateDetailedMetrics`. -/
structure MetricStats where
  count : ℕ
  min : ℚ
  max : ℚ
  average : ℚ
  median : ℚ
  percentile_95 : ℚ
  standard_deviation : ℝ

/-- Minimum of a value list (`Math.min(...values)`); call sites pass
nonempty lists (`Math.min()` of no arguments would be `Infinity`). -/
def listMin : List ℚ → ℚ
  | [] => 0
  | x :: xs => xs.foldl min x

/-- Maximum of a value list (`Math.max(...values)`); call sites pass
nonempty lists. -/
def listMax : List ℚ → ℚ
  | [] => 0
  | x :: xs => xs.foldl max x

/-- The summary record computed for one group by
`generateDetailedMetrics`. -/
noncomputable def statsOf (values : List ℚ) : MetricStats :=
  ⟨values.length, listMin values, listMax values,
   values.sum / (values.length : ℚ), calculateMedian values,
   calculatePercentile values 95, calculateStandardDeviation values⟩

/-- `generateDetailedMetrics`: group samples by type (insertion order)
and compute the summary record for each group; an empty input yields an
empty mapping. -/
noncomputable def generateDetailedMetrics (metrics : List Metric) :
    List (String × MetricStats) :=
  (groupKeys metrics).map (fun ty => (ty, statsOf (valuesOf ty metrics)))

/-! ### Anomaly detection (`detectMetricAnomalies`). -/

/-- Sensitivity-to-threshold lookup
`{low: 3, medium: 2.5, high: 2}[sensitivity] || 2.5`. -/
def sensitivityThreshold (s : String) : ℚ :=
  if s = "low" then 3
  else if s = "medium" then 5/2
  else if s = "high" then 2
  else 5/2

/-- Result of the IEEE expression `Math.abs((v - mean) / stdDev)`:
a finite value, `Infinity` (finite nonzero over zero), or `NaN`
(zero over zero).  The standard deviation is `Real.sqrt variance`, which
vanishes exactly when `variance = 0` (all group variances are
nonnegative), so the zero test is taken on `variance`. -/
inductive ZRes where
  | nan : ZRes
  | inf : ZRes
  | val : ℝ → ZRes

/-- The z-score `Math.abs((metric_value - mean) / stdDev)` with JavaScript
division semantics: `0 / 0` is `NaN`, nonzero over `0` is infinite, and
otherwise the finite quotient. -/
noncomputable def zScoreOf (v mean variance : ℚ) : ZRes :=
  if variance = 0 then (if v = mean then ZRes.nan else ZRes.inf)
  else ZRes.val |((v : ℝ) - (mean : ℝ)) / Real.sqrt (variance : ℚ)|

/-- JavaScript `>` on a z-score result: comparisons against `NaN` are
false, `Infinity` exceeds every finite bound. -/
def zExceeds (z : ZRes) (t : ℝ) : Prop :=
  match z with
  | ZRes.nan => False
  | ZRes.inf => True
  | ZRes.val x => t < x

/-- The `forEach`/`if`/`push` accumulation pattern: fold over the list,
appending `f x` for each `x` satisfying `p`. -/
def pushIf {α β : Type} (p : α → Prop) [DecidablePred p] (f : α → β)
    (l : List α) : List β :=
  l.foldl (fun acc x => if p x then acc ++ [f x] else acc) []

/-- Anomaly record pushed by `detectMetricAnomalies`: sample identity,
the expected range `[mean - thr·stdDev, mean + thr·stdDev]`, the z-score,
and a severity label. -/
structure AnomalyReport where
  metric_id : ℕ
  metric_type : String
  value : ℚ
  range_lo : ℝ
  range_hi : ℝ
  z_score : ZRes
  timestamp : ℕ
  severity : String

open Classical in
/-- The anomaly record for one sample of a group with the given
statistics; `severity` is `high` when the z-score exceeds
`threshold * 1.5`, else `medium`. -/
noncomputable def mkReport (m : Metric) (ty : String) (mean variance thr : ℚ) :
    AnomalyReport :=
  ⟨m.id, ty, m.metric_value,
   (mean : ℝ) - (thr : ℝ) * Real.sqrt (variance : ℚ),
   (mean : ℝ) + (thr : ℝ) * Real.sqrt (variance : ℚ),
   zScoreOf m.metric_value mean variance,
   m.timestamp,
   if zExceeds (zScoreOf m.metric_value mean variance) ((thr : ℝ) * 1.5)
   then "high" else "medium"⟩

open Classical in
/-- The per-group body of `detectMetricAnomalies`: compute the group
mean, variance and standard deviation, then push a report for every
sample whose z-score exceeds the threshold. -/
noncomputable def detectGroup (tm : List Metric) (ty : String) (thr : ℚ) :
    List AnomalyReport :=
  let values := tm.map (fun m => m.metric_value)
  pushIf
    (fun m => zExceeds
      (zScoreOf m.metric_value (meanOf values) (varianceOf values)) (thr : ℝ))
    (fun m => mkReport m ty (meanOf values) (varianceOf values) thr) tm

/-- `detectMetricAnomalies`: group samples by type (insertion order) and
accumulate the per-group reports into one list. -/
noncomputable def detectMetricAnomalies (metrics : List Metric)
    (sensitivity : String) : List AnomalyReport :=
  (groupKeys metrics).foldl
    (fun acc ty =>
      acc ++ detectGroup (groupOf ty metrics) ty (sensitivityThreshold sensitivity))
    []

/-! ### Capacity analysis (`analyzeCapacity`, `generateScalingTimeline`). -/

/-- `currentThroughput = tasks.length / 7` (tasks per day over a trailing
7-day window). -/
def currentThroughput (tasks : List Task) : ℚ := (tasks.length : ℚ) / 7

/-- The projected section of the `analyzeCapacity` result.  `none` models
the IEEE non-values: when `parseTimeframe` yields `NaN` every field is
`NaN`, and when `currentThroughput` is `0` the throughput ratio is
`0 / 0 = NaN` (the projected throughput is then also `0`), so the
estimated response time is `NaN`. -/
structure CapacityProjection where
  projected_throughput : Option ℝ
  throughput_per_day : Option ℤ
  estimated_response_time : Option ℤ

/-- The projection computed by `analyzeCapacity`:
`projectedThroughput = currentThroughput * (1 + growthRate) ^ (projectionDays / 30)`
with `projectionDays = parseTimeframe(projectionPeriod) / 86400000`, and
`estimated_response_time = round(avgResponseTime * (projectedThroughput / currentThroughput))`.
Only the fields the specification claims mention are modelled; the
remaining output (current section, recommendations, timeline) is covered
by `currentThroughput`, `avgOf` and `generateScalingTimeline`. -/
noncomputable def analyzeCapacity (metrics : List Metric) (tasks : List Task)
    (growthRate : ℝ) (projectionPeriod : String) : CapacityProjection :=
  let curT : ℚ := currentThroughput tasks
  let avgRT : ℚ := avgOf (responseTimes metrics)
  match parseTimeframe projectionPeriod with
  | none => ⟨none, none, none⟩
  | some ms =>
    let pd : ℚ := (ms : ℚ) / 86400000
    let projT : ℝ := (curT : ℝ) * (1 + growthRate) ^ ((pd : ℝ) / 30)
    ⟨some projT, some (jsRoundR projT),
     if curT = 0 then none
     else some (jsRoundR ((avgRT : ℝ) * (projT / (curT : ℝ))))⟩

/-- A scaling-timeline milestone: checkpoint day, compounded growth
factor rounded to two decimals (`Math.round(growthFactor * 100) / 100`),
and an action label. -/
structure Milestone where
  day : ℕ
  growth_factor : ℝ
  action_required : String

open Classical in
/-- The milestone pushed for checkpoint `d`: the growth factor is
`(1 + growthRate) ^ (d / 30)`; the stored field is rounded to two
decimals while the action label tests the unrounded factor. -/
noncomputable def mkMilestone (d : ℕ) (growthRate : ℝ) : Milestone :=
  ⟨d, ((jsRoundR ((1 + growthRate) ^ ((d : ℝ) / 30) * 100) : ℤ) : ℝ) / 100,
   if (1 + growthRate) ^ ((d : ℝ) / 30) > 1.5 then "Scale up"
   else if (1 + growthRate) ^ ((d : ℝ) / 30) > 1.2 then "Monitor closely"
   else "Normal operation"⟩

/-- `generateScalingTimeline`: push a milestone for every fixed
checkpoint in `[7, 14, 30, 60, 90]` that does not exceed the projection
horizon (in days). -/
noncomputable def generateScalingTimeline (projectionDays : ℚ)
    (growthRate : ℝ) : List Milestone :=
  pushIf (fun d : ℕ => (d : ℚ) ≤ projectionDays)
    (fun d => mkMilestone d growthRate) ([7, 14, 30, 60, 90] : List ℕ)

/-! ### Helper lemmas -/

theorem pushIf_foldl {α β : Type} (p : α → Prop) [DecidablePred p] (f : α → β) :
    ∀ (l : List α) (init : List β),
      l.foldl (fun acc x => if p x then acc ++ [f x] else acc) init
        = init ++ (l.filter (fun x => decide (p x))).map f := by
  intro l
  induction l with
  | nil => intro init; simp
  | cons x xs ih =>
      intro init
      by_cases h : p x
      · simp only [List.foldl, if_pos h, List.filter_cons, decide_eq_true_eq, h,
          if_true, List.map_cons]
        rw [ih]
        simp
      · simp only [List.foldl, if_neg h, List.filter_cons, decide_eq_true_eq, h,
          if_false]
        exact ih init

theorem pushIf_eq {α β : Type} (p : α → Prop) [DecidablePred p] (f : α → β)
    (l : List α) : pushIf p f l = (l.filter (fun x => decide (p x))).map f := by
  simpa using pushIf_foldl p f l []

theorem agentAvailability_nonneg (agents : List Agent) :
    0 ≤ agentAvailability agents :=
  div_nonneg (Nat.cast_nonneg _) (le_trans zero_le_one (le_max_right _ _))

theorem agentAvailability_le_one (agents : List Agent) :
    agentAvailability agents ≤ 1 := by
  unfold agentAvailability activeCount
  rw [div_le_one (lt_of_lt_of_le zero_lt_one (le_max_right _ _))]
  calc ((agents.filter (fun a => decide (a.status = "active"))).length : ℚ)
      ≤ (agents.length : ℚ) := by exact_mod_cast List.length_filter_le _ _
    _ ≤ max (agents.length : ℚ) 1 := le_max_left _ _

theorem taskSuccessRate_nonneg (tasks : List Task) : 0 ≤ taskSuccessRate tasks :=
  div_nonneg (Nat.cast_nonneg _) (le_trans zero_le_one (le_max_right _ _))

theorem taskSuccessRate_le_one (tasks : List Task) : taskSuccessRate tasks ≤ 1 := by
  unfold taskSuccessRate completedCount
  rw [div_le_one (lt_of_lt_of_le zero_lt_one (le_max_right _ _))]
  calc ((tasks.filter (fun t => decide (t.status = "completed"))).length : ℚ)
      ≤ (tasks.length : ℚ) := by exact_mod_cast List.length_filter_le _ _
    _ ≤ max (tasks.length : ℚ) 1 := le_max_left _ _

theorem responseFactor_nonneg (metrics : List Metric) :
    0 ≤ responseFactor metrics :=
  div_nonneg (le_max_left _ _) (by norm_num)

theorem responseFactor_le_one (metrics : List Metric)
    (h : 0 ≤ avgOf (responseTimes metrics)) : responseFactor metrics ≤ 1 := by
  unfold responseFactor
  rw [div_le_one (by norm_num)]
  refine max_le (by norm_num) ?_
  have : 0 ≤ avgOf (responseTimes metrics) / 10 :=
    div_nonneg h (by norm_num)
  linarith

/-! ### Claim theorems -/

/-- C2 (amended): the health score is
`round(0.4·(activeAgents/max(totalAgents,1))·100 +
0.4·(completedTasks/max(totalTasks,1))·100 + 0.2·max(0, 100 − avg/10))`,
and the returned status is the bucket (≥80 excellent, ≥60 good, ≥40 fair,
else poor) of the raw, unrounded health score — not of the rounded score.
The scenario 3/4 agents active, 8/10 tasks completed, 200ms average
response time yields score 78 and status good. -/
theorem c2_health_score_formula_and_status :
    (∀ (agents : List Agent) (metrics : List Metric) (tasks : List Task),
       (calculateSystemHealth agents metrics tasks).score
          = jsRound ((2/5) * ((activeCount agents : ℚ) / max (agents.length : ℚ) 1) * 100
              + (2/5) * ((completedCount tasks : ℚ) / max (tasks.length : ℚ) 1) * 100
              + (1/5) * max 0 (100 - avgOf (responseTimes metrics) / 10))
        ∧ (calculateSystemHealth agents metrics tasks).status
          = specStatusBucket (healthScoreQ agents metrics tasks))
    ∧ (calculateSystemHealth
         [⟨"active"⟩, ⟨"active"⟩, ⟨"active"⟩, ⟨"inactive"⟩]
         [⟨0, "response_time", 200, 0⟩]
         (List.replicate 8 ⟨"completed"⟩ ++ List.replicate 2 ⟨"pending"⟩)).score = 78
    ∧ (calculateSystemHealth
         [⟨"active"⟩, ⟨"active"⟩, ⟨"active"⟩, ⟨"inactive"⟩]
         [⟨0, "response_time", 200, 0⟩]
         (List.replicate 8 ⟨"completed"⟩ ++ List.replicate 2 ⟨"pending"⟩)).status
        = "good" := by
  refine ⟨fun agents metrics tasks => ⟨?_, rfl⟩, ?_, ?_⟩
  · show jsRound (healthScoreQ agents metrics tasks) = _
    unfold healthScoreQ agentAvailability taskSuccessRate responseFactor
    congr 1
    ring
  · simp [calculateSystemHealth, healthScoreQ, agentAvailability, taskSuccessRate,
      responseFactor, activeCount, completedCount, avgOf, responseTimes, jsRound,
      List.filter, List.foldl, List.replicate]
    norm_num
  · simp [calculateSystemHealth, healthScoreQ, agentAvailability, taskSuccessRate,
      responseFactor, activeCount, completedCount, avgOf, responseTimes,
      List.filter, List.foldl, List.replicate]
    norm_num

/-- C2 counterexample: with 1/1 agents active, 1/2 tasks completed and a
25ms average response time the raw health score is 79.5: the returned
score rounds to 80, whose bucket is `excellent`, yet the returned status
is `good` (the bucket of the unrounded 79.5).  The claim that the status
is the bucket of the rounded score is therefore false. -/
theorem c2_status_not_bucket_of_rounded_score :
    (calculateSystemHealth [⟨"active"⟩] [⟨0, "response_time", 25, 0⟩]
        [⟨"completed"⟩, ⟨"pending"⟩]).score = 80
  ∧ (calculateSystemHealth [⟨"active"⟩] [⟨0, "response_time", 25, 0⟩]
        [⟨"completed"⟩, ⟨"pending"⟩]).status = "good"
  ∧ specStatusBucket ((80 : ℤ) : ℚ) = "excellent" := by
  refine ⟨?_, ?_, by norm_num [specStatusBucket]⟩ <;>
  · simp [calculateSystemHealth, healthScoreQ, agentAvailability, taskSuccessRate,
      responseFactor, activeCount, completedCount, avgOf, responseTimes, jsRound,
      List.filter, List.foldl]
    norm_num

/-- C7: with the other two inputs fixed, the returned health score is
monotonically non-decreasing in the agent-availability ratio and in the
task-success ratio. -/
theorem c7_health_score_monotone :
    (∀ (A B : List Agent) (metrics : List Metric) (tasks : List Task),
        agentAvailability A ≤ agentAvailability B →
        (calculateSystemHealth A metrics tasks).score
          ≤ (calculateSystemHealth B metrics tasks).score)
  ∧ (∀ (agents : List Agent) (metrics : List Metric) (T U : List Task),
        taskSuccessRate T ≤ taskSuccessRate U →
        (calculateSystemHealth agents metrics T).score
          ≤ (calculateSystemHealth agents metrics U).score) := by
  constructor
  · intro A B metrics tasks h
    show jsRound (healthScoreQ A metrics tasks) ≤ jsRound (healthScoreQ B metrics tasks)
    unfold jsRound
    apply Int.floor_mono
    unfold healthScoreQ
    have := mul_le_mul_of_nonneg_right h (by norm_num : (0 : ℚ) ≤ 40)
    linarith
  · intro agents metrics T U h
    show jsRound (healthScoreQ agents metrics T) ≤ jsRound (healthScoreQ agents metrics U)
    unfold jsRound
    apply Int.floor_mono
    unfold healthScoreQ
    have := mul_le_mul_of_nonneg_right h (by norm_num : (0 : ℚ) ≤ 40)
    linarith

/-- C7 witness: one inactive agent scores no better than one active
agent, and one pending task scores no better than one completed task. -/
theorem c7_health_score_monotone_witness :
    (calculateSystemHealth [⟨"inactive"⟩] [] []).score
      ≤ (calculateSystemHealth [⟨"active"⟩] [] []).score
  ∧ (calculateSystemHealth [] [] [⟨"pending"⟩]).score
      ≤ (calculateSystemHealth [] [] [⟨"completed"⟩]).score :=
  ⟨c7_health_score_monotone.1 _ _ _ _
      (by simp [agentAvailability, activeCount, List.filter_cons]),
   c7_health_score_monotone.2 _ _ _ _
      (by simp [taskSuccessRate, completedCount, List.filter_cons])⟩

/-- C10: whenever the average response time is non-negative (the active
agents and completed tasks are subsets of their collections by
construction, as they are filters of them), the returned health score
lies in `[0, 100]`. -/
theorem c10_health_score_bounds :
    ∀ (agents : List Agent) (metrics : List Metric) (tasks : List Task),
      0 ≤ avgOf (responseTimes metrics) →
      0 ≤ (calculateSystemHealth agents metrics tasks).score
        ∧ (calculateSystemHealth agents metrics tasks).score ≤ 100 := by
  intro agents metrics tasks h
  have h1 := agentAvailability_nonneg agents
  have h2 := agentAvailability_le_one agents
  have h3 := taskSuccessRate_nonneg tasks
  have h4 := taskSuccessRate_le_one tasks
  have h5 := responseFactor_nonneg metrics
  have h6 := responseFactor_le_one metrics h
  have e1 := mul_le_mul_of_nonneg_right h2 (by norm_num : (0 : ℚ) ≤ 40)
  have e2 := mul_le_mul_of_nonneg_right h4 (by norm_num : (0 : ℚ) ≤ 40)
  have e3 := mul_le_mul_of_nonneg_right h6 (by norm_num : (0 : ℚ) ≤ 20)
  have e4 := mul_nonneg h1 (by norm_num : (0 : ℚ) ≤ 40)
  have e5 := mul_nonneg h3 (by norm_num : (0 : ℚ) ≤ 40)
  have e6 := mul_nonneg h5 (by norm_num : (0 : ℚ) ≤ 20)
  have hs1 : 0 ≤ healthScoreQ agents metrics tasks := by
    unfold healthScoreQ; linarith
  have hs2 : healthScoreQ agents metrics tasks ≤ 100 := by
    unfold healthScoreQ; linarith
  constructor
  · show 0 ≤ jsRound (healthScoreQ agents metrics tasks)
    exact Int.le_floor.mpr (by push_cast; linarith)
  · show jsRound (healthScoreQ agents metrics tasks) ≤ 100
    have : jsRound (healthScoreQ agents metrics tasks) < 101 :=
      Int.floor_lt.mpr (by push_cast; linarith)
    omega

/-- C10 witness: the bounds at a concrete input with one active agent,
one 100ms response-time sample and no tasks. -/
theorem c10_health_score_bounds_witness :
    0 ≤ avgOf (responseTimes [⟨0, "response_time", 100, 0⟩])
  ∧ 0 ≤ (calculateSystemHealth [⟨"active"⟩] [⟨0, "response_time", 100, 0⟩] []).score
  ∧ (calculateSystemHealth [⟨"active"⟩] [⟨0, "response_time", 100, 0⟩] []).score ≤ 100 := by
  have h : 0 ≤ avgOf (responseTimes [⟨0, "response_time", 100, 0⟩]) := by
    norm_num [avgOf, responseTimes, List.filter, List.foldl]
  exact ⟨h, (c10_health_score_bounds _ _ _ h).1, (c10_health_score_bounds _ _ _ h).2⟩

theorem isDigit_not_whitespace {c : Char} (h : c.isDigit = true) :
    c.isWhitespace = false := by
  cases hw : c.isWhitespace with
  | false => rfl
  | true =>
      exfalso
      have hc : ((c = ' ' ∨ c = '\t') ∨ c = '\x0d') ∨ c = '\n' := by
        simpa [Char.isWhitespace] using hw
      rcases hc with ((rfl | rfl) | rfl) | rfl <;> exact absurd h (by decide)

theorem isDigit_ne_dash {c : Char} (h : c.isDigit = true) : c ≠ '-' := by
  intro hc; subst hc; exact absurd h (by decide)

theorem isDigit_ne_plus {c : Char} (h : c.isDigit = true) : c ≠ '+' := by
  intro hc; subst hc; exact absurd h (by decide)

theorem jsParseInt_digits {ds : List Char} (h0 : ds ≠ [])
    (hd : ∀ c ∈ ds, c.isDigit) : jsParseInt ds = some (digitsVal ds : ℤ) := by
  obtain ⟨d, tl, rfl⟩ := List.exists_cons_of_ne_nil h0
  have hdd : d.isDigit := hd d (by simp)
  have hdrop : (d :: tl).dropWhile (fun c => c.isWhitespace) = d :: tl := by
    rw [List.dropWhile_cons, isDigit_not_whitespace hdd]
    simp
  have htake : (d :: tl).takeWhile (fun c => c.isDigit) = d :: tl :=
    List.takeWhile_eq_self_iff.mpr hd
  have e1 : (some d = some '-') = False := by
    simp [isDigit_ne_dash hdd]
  have e2 : (some d = some '+') = False := by
    simp [isDigit_ne_plus hdd]
  simp only [jsParseInt, hdrop, List.head?_cons, e1, e2, or_self, if_false, htake]
  simp

/-- C9: a timeframe string whose final character is not `h`, `d` or `w`
parses to the default 24-hour window (86400000 ms), and digit strings
suffixed `h`, `d` or `w` parse to the integer times 3600000, 86400000 and
604800000 ms respectively. -/
theorem c9_parse_timeframe :
    (∀ (cs : List Char) (c : Char), c ≠ 'h' → c ≠ 'd' → c ≠ 'w' →
        parseTimeframe (String.mk (cs ++ [c])) = some 86400000)
  ∧ (∀ ds : List Char, ds ≠ [] → (∀ c ∈ ds, c.isDigit) →
        parseTimeframe (String.mk (ds ++ ['h'])) = some ((digitsVal ds : ℤ) * 3600000)
      ∧ parseTimeframe (String.mk (ds ++ ['d'])) = some ((digitsVal ds : ℤ) * 86400000)
      ∧ parseTimeframe (String.mk (ds ++ ['w'])) = some ((digitsVal ds : ℤ) * 604800000)) := by
  have htl : ∀ l : List Char, (String.mk l).toList = l := fun _ => rfl
  constructor
  · intro cs c h1 h2 h3
    simp only [parseTimeframe, htl, List.getLast?_concat, Option.some.injEq]
    rw [if_neg (by simpa using h1), if_neg (by simpa using h2),
      if_neg (by simpa using h3)]
  · intro ds h0 hd
    refine ⟨?_, ?_, ?_⟩ <;>
    · simp only [parseTimeframe, htl, List.getLast?_concat, List.dropLast_concat,
        jsParseInt_digits h0 hd, Option.some.injEq]
      simp

/-- C9 witness: `24x` falls back to the default window, and `25h` parses
to 25 hours in milliseconds. -/
theorem c9_parse_timeframe_witness :
    parseTimeframe (String.mk (['2', '4'] ++ ['x'])) = some 86400000
  ∧ parseTimeframe (String.mk (['2', '5'] ++ ['h']))
      = some ((digitsVal ['2', '5'] : ℤ) * 3600000) :=
  ⟨c9_parse_timeframe.1 ['2', '4'] 'x' (by decide) (by decide) (by decide),
   (c9_parse_timeframe.2 ['2', '5'] (by decide) (by decide)).1⟩

theorem insertAsc_length (v : ℚ) (l : List ℚ) :
    (insertAsc v l).length = l.length + 1 := by
  induction l with
  | nil => simp [insertAsc]
  | cons x xs ih => by_cases h : v ≤ x <;> simp [insertAsc, h, ih]

theorem jsSort_length (l : List ℚ) : (jsSort l).length = l.length := by
  induction l with
  | nil => rfl
  | cons x xs ih => simp [jsSort, insertAsc_length, ih]

theorem calculateMedian_spec (l : List ℚ) :
    calculateMedian l
      = (if l.length % 2 = 0 then
          ((jsSort l).getD (l.length / 2 - 1) 0 + (jsSort l).getD (l.length / 2) 0) / 2
        else (jsSort l).getD (l.length / 2) 0) := by
  simp [calculateMedian, jsSort_length]

theorem calculatePercentile_95_spec (l : List ℚ) (h : l ≠ []) :
    calculatePercentile l 95
      = (jsSort l).getD
          ((min (l.length : ℤ) (max 1 ⌈(95 : ℚ) / 100 * (l.length : ℚ)⌉)).toNat - 1) 0 := by
  have hn : 1 ≤ l.length := List.length_pos.mpr h
  have hn1 : (1 : ℚ) ≤ (l.length : ℚ) := by exact_mod_cast hn
  have hk1 : 1 ≤ ⌈(95 : ℚ) / 100 * (l.length : ℚ)⌉ := by
    have hx : (0 : ℚ) < (95 : ℚ) / 100 * (l.length : ℚ) := by nlinarith
    have := Int.ceil_pos.mpr hx
    omega
  have hkn : ⌈(95 : ℚ) / 100 * (l.length : ℚ)⌉ ≤ (l.length : ℤ) := by
    apply Int.ceil_le.mpr
    push_cast
    nlinarith
  simp only [calculatePercentile, jsSort_length]
  congr 1
  omega

theorem groupKeys_foldl_mem (l : List Metric) :
    ∀ (ks : List String) (ty : String),
      ty ∈ l.foldl
          (fun ks m => if m.metric_type ∈ ks then ks else ks ++ [m.metric_type]) ks
        ↔ (ty ∈ ks ∨ ∃ m ∈ l, m.metric_type = ty) := by
  induction l with
  | nil => intro ks ty; simp
  | cons m tl ih =>
      intro ks ty
      simp only [List.foldl_cons]
      by_cases hm : m.metric_type ∈ ks
      · rw [if_pos hm, ih]
        simp only [List.mem_cons]
        constructor
        · rintro (h | ⟨m', hm', rfl⟩)
          · exact Or.inl h
          · exact Or.inr ⟨m', Or.inr hm', rfl⟩
        · rintro (h | ⟨m', (rfl | hm'), rfl⟩)
          · exact Or.inl h
          · exact Or.inl hm
          · exact Or.inr ⟨m', hm', rfl⟩
      · rw [if_neg hm, ih]
        simp only [List.mem_append, List.mem_cons, List.not_mem_nil, or_false]
        constructor
        · rintro ((h | h) | ⟨m', hm', rfl⟩)
          · exact Or.inl h
          · exact Or.inr ⟨m, Or.inl rfl, h.symm⟩
          · exact Or.inr ⟨m', Or.inr hm', rfl⟩
        · rintro (h | ⟨m', (rfl | hm'), rfl⟩)
          · exact Or.inl (Or.inl h)
          · exact Or.inl (Or.inr rfl)
          · exact Or.inr ⟨m', hm', rfl⟩

theorem mem_groupKeys_iff (metrics : List Metric) (ty : String) :
    ty ∈ groupKeys metrics ↔ ∃ m ∈ metrics, m.metric_type = ty := by
  rw [groupKeys, groupKeys_foldl_mem]
  simp

theorem valuesOf_ne_nil {metrics : List Metric} {ty : String}
    (h : ty ∈ groupKeys metrics) : valuesOf ty metrics ≠ [] := by
  obtain ⟨m, hm, hty⟩ := (mem_groupKeys_iff metrics ty).mp h
  intro hnil
  rw [valuesOf, List.map_eq_nil_iff] at hnil
  have : m ∈ groupOf ty metrics :=
    List.mem_filter.mpr ⟨hm, by simp [hty]⟩
  rw [hnil] at this
  exact absurd this (List.not_mem_nil m)

/-- C5: per metric-type group the aggregator returns the count, minimum,
maximum, average `sum/count`, the median of the sorted values (mean of
the two middles for even counts), the `ceil(0.95·n)`-th order statistic
(1-indexed, clamped to `[1, n]`) as 95th percentile, and the population
standard deviation `sqrt(Σ(v − mean)²/n)`; an empty sample set yields an
empty mapping, and the group `[100, 200, 300]` has average 200, min 100,
max 300, median 200 and standard deviation within 0.01 of 81.65. -/
theorem c5_detailed_metrics :
    generateDetailedMetrics [] = []
  ∧ (∀ (metrics : List Metric) (ty : String) (s : MetricStats),
      (ty, s) ∈ generateDetailedMetrics metrics →
        s.count = (valuesOf ty metrics).length
      ∧ s.min = listMin (valuesOf ty metrics)
      ∧ s.max = listMax (valuesOf ty metrics)
      ∧ s.average = (valuesOf ty metrics).sum / ((valuesOf ty metrics).length : ℚ)
      ∧ s.median = (if (valuesOf ty metrics).length % 2 = 0 then
            ((jsSort (valuesOf ty metrics)).getD ((valuesOf ty metrics).length / 2 - 1) 0
              + (jsSort (valuesOf ty metrics)).getD ((valuesOf ty metrics).length / 2) 0) / 2
          else (jsSort (valuesOf ty metrics)).getD ((valuesOf ty metrics).length / 2) 0)
      ∧ s.percentile_95 = (jsSort (valuesOf ty metrics)).getD
          ((min ((valuesOf ty metrics).length : ℤ)
             (max 1 ⌈(95 : ℚ) / 100 * ((valuesOf ty metrics).length : ℚ)⌉)).toNat - 1) 0
      ∧ s.standard_deviation = Real.sqrt
          ((((valuesOf ty metrics).map
              (fun v => (v - (valuesOf ty metrics).sum / ((valuesOf ty metrics).length : ℚ)) ^ 2)).sum
            / ((valuesOf ty metrics).length : ℚ) : ℚ)))
  ∧ generateDetailedMetrics
      [⟨1, "response_time", 100, 0⟩, ⟨2, "response_time", 200, 1⟩, ⟨3, "response_time", 300, 2⟩]
      = [("response_time", statsOf [100, 200, 300])]
  ∧ (statsOf [100, 200, 300]).average = 200
  ∧ (statsOf [100, 200, 300]).min = 100
  ∧ (statsOf [100, 200, 300]).max = 300
  ∧ (statsOf [100, 200, 300]).median = 200
  ∧ |(statsOf [100, 200, 300]).standard_deviation - 8165 / 100| ≤ 1 / 100 := by
  refine ⟨rfl, ?_, ?_, ?_, ?_, ?_, ?_, ?_⟩
  · intro metrics ty s hmem
    simp only [generateDetailedMetrics, List.mem_map] at hmem
    obtain ⟨ty', hty', heq⟩ := hmem
    rw [Prod.ext_iff] at heq
    obtain ⟨hty, hs⟩ := heq
    simp only at hty hs
    subst hty
    subst hs
    refine ⟨rfl, rfl, rfl, rfl, ?_, ?_, rfl⟩
    · exact calculateMedian_spec _
    · exact calculatePercentile_95_spec _ (valuesOf_ne_nil hty')
  · rfl
  · norm_num [statsOf]
  · norm_num [statsOf, listMin, List.foldl, min_def]
  · norm_num [statsOf, listMax, List.foldl, max_def]
  · norm_num [statsOf, calculateMedian, jsSort, insertAsc, List.getD]
  · have hv : (varianceOf [100, 200, 300] : ℚ) = 20000 / 3 := by
      norm_num [varianceOf, meanOf]
    have hsd : (statsOf [100, 200, 300]).standard_deviation
        = Real.sqrt ((20000 : ℝ) / 3) := by
      show calculateStandardDeviation [100, 200, 300] = _
      rw [calculateStandardDeviation, hv]
      norm_num
    rw [hsd]
    have h1 : (8164 / 100 : ℝ) ≤ Real.sqrt ((20000 : ℝ) / 3) :=
      (Real.le_sqrt (by norm_num) (by norm_num)).mpr (by norm_num)
    have h2 : Real.sqrt ((20000 : ℝ) / 3) < 8166 / 100 :=
      (Real.sqrt_lt' (by norm_num)).mpr (by norm_num)
    rw [abs_le]
    constructor <;> linarith

/-- C5 witness: the aggregator output for the scenario samples contains
the `response_time` group, whose count evaluates to 3 through the
per-group contract. -/
theorem c5_detailed_metrics_witness :
    ("response_time", statsOf [100, 200, 300]) ∈ generateDetailedMetrics
        [⟨1, "response_time", 100, 0⟩, ⟨2, "response_time", 200, 1⟩, ⟨3, "response_time", 300, 2⟩]
  ∧ (statsOf [100, 200, 300]).count = 3 := by
  have hmem : ("response_time", statsOf [100, 200, 300]) ∈ generateDetailedMetrics
      [⟨1, "response_time", 100, 0⟩, ⟨2, "response_time", 200, 1⟩, ⟨3, "response_time", 300, 2⟩] := by
    rw [c5_detailed_metrics.2.2.1]
    exact List.mem_singleton.mpr rfl
  refine ⟨hmem, ?_⟩
  have h := (c5_detailed_metrics.2.1 _ _ _ hmem).1
  rw [h]
  rfl

theorem foldl_append_eq {α β : Type} (f : α → List β) :
    ∀ (l : List α) (init : List β),
      l.foldl (fun acc x => acc ++ f x) init = init ++ l.flatMap f := by
  intro l
  induction l with
  | nil => intro init; simp
  | cons x xs ih =>
      intro init
      simp only [List.foldl_cons, List.flatMap_cons]
      rw [ih]
      simp

open Classical in
theorem detectMetricAnomalies_flatMap (metrics : List Metric) (s : String) :
    detectMetricAnomalies metrics s
      = (groupKeys metrics).flatMap (fun ty =>
          detectGroup (groupOf ty metrics) ty (sensitivityThreshold s)) := by
  rw [detectMetricAnomalies, foldl_append_eq]
  simp

theorem list_sum_const {l : List ℚ} {c : ℚ} (h : ∀ v ∈ l, v = c) :
    l.sum = (l.length : ℚ) * c := by
  induction l with
  | nil => simp
  | cons x xs ih =>
      have hx : x = c := h x (by simp)
      have hxs : xs.sum = (xs.length : ℚ) * c := ih (fun v hv => h v (by simp [hv]))
      simp only [List.sum_cons, List.length_cons, hx, hxs]
      push_cast
      ring

theorem meanOf_const {l : List ℚ} {c : ℚ} (h0 : l ≠ []) (h : ∀ v ∈ l, v = c) :
    meanOf l = c := by
  have hlen0 : l.length ≠ 0 := fun he => h0 (List.length_eq_zero.mp he)
  have hlen : (l.length : ℚ) ≠ 0 := Nat.cast_ne_zero.mpr hlen0
  rw [meanOf, list_sum_const h, mul_comm, mul_div_assoc, div_self hlen, mul_one]

theorem varianceOf_const {l : List ℚ} {c : ℚ} (h0 : l ≠ []) (h : ∀ v ∈ l, v = c) :
    varianceOf l = 0 := by
  rw [varianceOf]
  have hz : ∀ v ∈ l.map (fun v => (v - meanOf l) ^ 2), v = (0 : ℚ) := by
    intro v hv
    rw [List.mem_map] at hv
    obtain ⟨x, hx, rfl⟩ := hv
    rw [meanOf_const h0 h, h x hx]
    ring
  rw [list_sum_const hz]
  simp

open Classical in
theorem detectGroup_const {tm : List Metric} {c : ℚ} (ty : String) (thr : ℚ)
    (hall : ∀ m ∈ tm, m.metric_value = c) : detectGroup tm ty thr = [] := by
  cases htm : tm with
  | nil => rfl
  | cons m0 tl =>
      subst htm
      have hvne : (m0 :: tl).map (fun m => m.metric_value) ≠ [] := by simp
      have hvc : ∀ v ∈ (m0 :: tl).map (fun m => m.metric_value), v = c := by
        intro v hv
        rw [List.mem_map] at hv
        obtain ⟨m, hm, rfl⟩ := hv
        exact hall m hm
      rw [detectGroup, pushIf_eq]
      have hfilter : ∀ m ∈ m0 :: tl,
          ¬ zExceeds (zScoreOf m.metric_value
              (meanOf ((m0 :: tl).map (fun m => m.metric_value)))
              (varianceOf ((m0 :: tl).map (fun m => m.metric_value))))
            ((thr : ℚ) : ℝ) := by
        intro m hm
        rw [meanOf_const hvne hvc, varianceOf_const hvne hvc, zScoreOf,
          if_pos rfl, if_pos (hall m hm)]
        exact not_false
      rw [List.map_eq_nil_iff, List.filter_eq_nil_iff]
      intro m hm
      simpa using hfilter m hm

open Classical in
/-- C3: the sensitivity levels low, medium and high map to thresholds 3,
2.5 and 2; the detector emits, in group order, exactly one report per
sample whose z-score `|value − mean| / stdDev` (group population mean and
standard deviation, with JavaScript division semantics at `stdDev = 0`)
exceeds the threshold; a report's severity is `high` exactly when the
stored z-score exceeds `threshold * 1.5` and `medium` otherwise. -/
theorem c3_anomaly_reports :
    sensitivityThreshold "low" = 3
  ∧ sensitivityThreshold "medium" = 5/2
  ∧ sensitivityThreshold "high" = 2
  ∧ (∀ (metrics : List Metric) (s : String),
      detectMetricAnomalies metrics s
        = (groupKeys metrics).flatMap (fun ty =>
            ((groupOf ty metrics).filter (fun m =>
                decide (zExceeds
                  (zScoreOf m.metric_value (meanOf (valuesOf ty metrics))
                    (varianceOf (valuesOf ty metrics)))
                  ((sensitivityThreshold s : ℚ) : ℝ)))).map
              (fun m => mkReport m ty (meanOf (valuesOf ty metrics))
                (varianceOf (valuesOf ty metrics)) (sensitivityThreshold s))))
  ∧ (∀ (metrics : List Metric) (s : String) (a : AnomalyReport),
      a ∈ detectMetricAnomalies metrics s →
        a.severity
          = if zExceeds a.z_score (((sensitivityThreshold s : ℚ) : ℝ) * 1.5)
            then "high" else "medium") := by
  refine ⟨rfl, rfl, rfl, ?_, ?_⟩
  · intro metrics s
    rw [detectMetricAnomalies_flatMap]
    congr 1
    funext ty
    simp only [detectGroup, valuesOf]
    rw [pushIf_eq]
  · intro metrics s a ha
    rw [detectMetricAnomalies_flatMap] at ha
    rw [List.mem_flatMap] at ha
    obtain ⟨ty, _, hmem⟩ := ha
    rw [detectGroup, pushIf_eq, List.mem_map] at hmem
    obtain ⟨m, _, rfl⟩ := hmem
    rfl

/-- C3 witness: the detector on the empty sample list yields no reports,
through the flat-map characterisation. -/
theorem c3_anomaly_reports_witness :
    detectMetricAnomalies [] "medium" = [] := by
  rw [c3_anomaly_reports.2.2.2.1 [] "medium"]
  rfl

/-- C4: when every sample of a metric-type group carries the same value
(population standard deviation 0), the detector reports no anomaly for
that group, at every sensitivity: the `0 / 0` z-score is `NaN` and the
JavaScript comparison `NaN > threshold` is false. -/
theorem c4_constant_group_no_anomalies :
    ∀ (metrics : List Metric) (s ty : String) (c : ℚ),
      (∀ m ∈ metrics, m.metric_type = ty → m.metric_value = c) →
      (detectMetricAnomalies metrics s).filter
        (fun a => decide (a.metric_type = ty)) = [] := by
  intro metrics s ty c h
  rw [detectMetricAnomalies_flatMap, List.filter_eq_nil_iff]
  intro a ha
  rw [List.mem_flatMap] at ha
  obtain ⟨ty', _, hmem⟩ := ha
  by_cases hty : ty' = ty
  · subst hty
    have hgroup : ∀ m ∈ groupOf ty' metrics, m.metric_value = c := by
      intro m hm
      rw [groupOf, List.mem_filter] at hm
      exact h m hm.1 (by simpa using hm.2)
    rw [detectGroup_const ty' (sensitivityThreshold s) hgroup] at hmem
    exact absurd hmem (List.not_mem_nil a)
  · have : a.metric_type = ty' := by
      classical
      rw [detectGroup, pushIf_eq, List.mem_map] at hmem
      obtain ⟨m, _, rfl⟩ := hmem
      rfl
    simp [this, hty]

/-- C4 witness: two equal-valued `cpu` samples produce no `cpu` anomaly
report at high sensitivity. -/
theorem c4_constant_group_no_anomalies_witness :
    (∀ m ∈ ([⟨1, "cpu", 5, 0⟩, ⟨2, "cpu", 5, 1⟩] : List Metric),
        m.metric_type = "cpu" → m.metric_value = 5)
  ∧ (detectMetricAnomalies [⟨1, "cpu", 5, 0⟩, ⟨2, "cpu", 5, 1⟩] "high").filter
      (fun a => decide (a.metric_type = "cpu")) = [] :=
  ⟨by decide,
   c4_constant_group_no_anomalies [⟨1, "cpu", 5, 0⟩, ⟨2, "cpu", 5, 1⟩] "high" "cpu" 5
     (by decide)⟩

/-- C1: evaluation of the capacity projector at a failing input.  With no
tasks the current throughput is `0/7 = 0`, the projected throughput is
`0`, and the source computes
`Math.round(avgResponseTime * (0 / 0)) = NaN` — there is no
divide-by-zero guard, so the estimated response time is not the defined
value `avgResponseTime = 100` that the specification requires. -/
theorem c1_estimated_response_time_nan :
    (analyzeCapacity [⟨1, "response_time", 100, 0⟩] [] (1/10 : ℝ)
        "30d").estimated_response_time = none
  ∧ avgOf (responseTimes [⟨1, "response_time", 100, 0⟩]) = 100 := by
  constructor
  · have hp : parseTimeframe "30d" = some 2592000000 := rfl
    simp only [analyzeCapacity, hp]
    norm_num [currentThroughput]
  · simp [avgOf, responseTimes, List.filter_cons, List.foldl]

/-- C6: the projected throughput is
`currentThroughput * (1 + growthRate) ^ (horizonDays / 30)` with
`horizonDays = parseTimeframe(period) / 86400000`; with `growthRate = 0`
it equals the current throughput exactly for any horizon, and 70 tasks
over 7 days (10/day) with growth rate 0.1 over a 30-day horizon project
to exactly 11 per day. -/
theorem c6_projected_throughput :
    (∀ (metrics : List Metric) (tasks : List Task) (g : ℝ) (period : String)
        (ms : ℤ), parseTimeframe period = some ms →
        (analyzeCapacity metrics tasks g period).projected_throughput
          = some ((currentThroughput tasks : ℝ)
              * (1 + g) ^ ((((ms : ℚ) / 86400000 : ℚ) : ℝ) / 30))
      ∧ (g = 0 →
          (analyzeCapacity metrics tasks g period).projected_throughput
            = some ((currentThroughput tasks : ℝ))))
  ∧ (analyzeCapacity [] (List.replicate 70 ⟨"completed"⟩) (1/10 : ℝ)
        "30d").projected_throughput = some 11 := by
  constructor
  · intro metrics tasks g period ms h
    constructor
    · simp only [analyzeCapacity, h]
    · intro hg
      subst hg
      simp only [analyzeCapacity, h, add_zero, Real.one_rpow, mul_one]
  · have hp : parseTimeframe "30d" = some 2592000000 := rfl
    simp only [analyzeCapacity, hp]
    have hc : (currentThroughput (List.replicate 70 ⟨"completed"⟩) : ℝ) = 10 := by
      norm_num [currentThroughput]
    have he : ((((2592000000 : ℤ) : ℚ) / 86400000 : ℚ) : ℝ) / 30 = 1 := by
      norm_num
    rw [hc, he, Real.rpow_one]
    norm_num

/-- C6 witness: the growth-rate-zero case at the concrete horizon `7d`
with one task. -/
theorem c6_projected_throughput_witness :
    parseTimeframe "7d" = some 604800000
  ∧ (analyzeCapacity [] [⟨"completed"⟩] (0 : ℝ) "7d").projected_throughput
      = some ((currentThroughput [⟨"completed"⟩] : ℝ)) :=
  ⟨rfl,
   (c6_projected_throughput.1 [] [⟨"completed"⟩] 0 "7d" 604800000 rfl).2 rfl⟩

open Classical in
/-- C8 (amended): the scaling timeline holds exactly one milestone for
each checkpoint in `[7, 14, 30, 60, 90]` days that is at most the
horizon, in checkpoint order; each milestone carries the compounded
growth factor `(1 + growthRate) ^ (days / 30)` rounded to two decimals
(`Math.round(growthFactor * 100) / 100`), while its action label is
computed from the unrounded factor: `Scale up` above 1.5,
`Monitor closely` above 1.2, else `Normal operation`. -/
theorem c8_scaling_timeline :
    (∀ (pd : ℚ) (g : ℝ),
       generateScalingTimeline pd g
         = (([7, 14, 30, 60, 90] : List ℕ).filter
             (fun d : ℕ => decide ((d : ℚ) ≤ pd))).map (fun d => mkMilestone d g))
  ∧ (∀ (d : ℕ) (g : ℝ),
       (mkMilestone d g).day = d
     ∧ (mkMilestone d g).growth_factor
         = ((jsRoundR ((1 + g) ^ ((d : ℝ) / 30) * 100) : ℤ) : ℝ) / 100
     ∧ (mkMilestone d g).action_required
         = (if (1 + g) ^ ((d : ℝ) / 30) > 1.5 then "Scale up"
            else if (1 + g) ^ ((d : ℝ) / 30) > 1.2 then "Monitor closely"
            else "Normal operation")) :=
  ⟨fun _ _ => pushIf_eq _ _ _, fun _ _ => ⟨rfl, rfl, rfl⟩⟩

open Classical in
/-- C8 counterexample: with growth rate 0.05 and a 60-day horizon the
day-60 milestone stores growth factor
`round(1.05² · 100)/100 = round(110.25)/100 = 1.10`, which differs from
the unrounded compounded factor `1.05^(60/30) = 1.1025` the claim says
the milestone carries. -/
theorem c8_growth_factor_is_rounded :
    ∃ m ∈ generateScalingTimeline 60 (1/20 : ℝ),
      m.day = 60 ∧ m.growth_factor ≠ (1 + (1/20 : ℝ)) ^ ((60 : ℝ) / 30) := by
  have hx : (1 + (1/20 : ℝ)) ^ ((60 : ℝ) / 30) = 441/400 := by
    rw [show ((60 : ℝ) / 30) = ((2 : ℕ) : ℝ) by norm_num, Real.rpow_natCast]
    norm_num
  refine ⟨mkMilestone 60 (1/20), ?_, rfl, ?_⟩
  · rw [generateScalingTimeline, pushIf_eq]
    have hf : (([7, 14, 30, 60, 90] : List ℕ).filter
        (fun d : ℕ => decide ((d : ℚ) ≤ 60))) = [7, 14, 30, 60] := by
      simp [List.filter_cons]
    rw [hf]
    simp
  · show ((jsRoundR ((1 + (1/20 : ℝ)) ^ (((60 : ℕ) : ℝ) / 30) * 100) : ℤ) : ℝ) / 100 ≠ _
    have hcast : (((60 : ℕ) : ℝ) / 30) = ((60 : ℝ) / 30) := by norm_num
    rw [hcast, hx]
    have hr : jsRoundR ((441/400 : ℝ) * 100) = 110 := by
      rw [jsRoundR]
      rw [show ((441/400 : ℝ) * 100 + 1/2) = 443/4 by norm_num]
      rw [Int.floor_eq_iff]
      norm_num
    rw [hr]
    norm_num

end FMAA
